import Mathlib

/-!
Verification of the argument-resolution and binding layer of the
runtime-fmt crate (src/lib.rs), shallowly embedded in Lean 4.

The embedding follows the source file closely:
* the tokenizer output (the `fmt_macros` module is vendored, not part of
  src/lib.rs) is modelled from the spec's interface boundary: a list of
  pieces (literal text / argument references) plus a list of collected
  syntax diagnostics;
* the `ParseTarget` trait becomes a structure of functions, generic in the
  resolved-argument type, exactly as the Rust trait is generic;
* `parse` is split into a per-piece step function `stepOne`, its iteration
  `stepMany`, and the final-flush `finish`, composing to the same function
  as the Rust single-pass loop;
* `outer_parse`, `convert_count`, `newln`, the plan wrappers `FormatBuf` /
  `PreparedFormat` and their rendering entry points are translated
  definition by definition.
-/

namespace RtFmt

/-- Errors during parsing or formatting (the `Error` enum of src/lib.rs).
The `Io` and `Fmt` variants carry external payloads (std error values) and
are modelled as bare constructors; they never arise during parsing. -/
inductive Error where
  | BadSyntax : List (String × Option String) → Error
  | BadIndex : Nat → Error
  | BadName : String → Error
  | NoSuchFormat : String → Error
  | UnsatisfiedFormat : Nat → String → Error
  | BadCount : Nat → Error
  | Io : Error
  | Fmt : Error
deriving Repr, DecidableEq

namespace fmt_macros

/-- Modelled from the spec: alignment carried by a tokenizer argument
reference (the vendored fmt_macros module is not under src/; its shape is
fixed by the spec's tokenizer boundary and by the pattern matches in
src/lib.rs lines 458-462). -/
inductive Alignment where
  | AlignLeft
  | AlignRight
  | AlignCenter
  | AlignUnknown
deriving Repr, DecidableEq

/-- Modelled from the spec: a width or precision count as produced by the
tokenizer — literal, by-name, by-index, or implied (src/lib.rs lines
431-452 match exactly these four constructors). -/
inductive Count where
  | CountIs : Nat → Count
  | CountIsName : String → Count
  | CountIsParam : Nat → Count
  | CountImplied
deriving Repr, DecidableEq

/-- Modelled from the spec: the inline format descriptor of an argument
reference (fill character, alignment, flag bits, precision and width
counts, type tag). -/
structure FormatSpec where
  fill : Option Char
  align : Alignment
  flags : Nat
  precision : Count
  width : Count
  ty : String
deriving Repr, DecidableEq

/-- Modelled from the spec: an argument reference's position. The
tokenizer resolves "next implicit index" itself (src/lib.rs lines 413-425
match only these two constructors). -/
inductive Position where
  | ArgumentIs : Nat → Position
  | ArgumentNamed : String → Position
deriving Repr, DecidableEq

/-- Modelled from the spec: one argument-reference token. -/
structure Argument where
  position : Position
  format : FormatSpec
deriving Repr, DecidableEq

/-- Modelled from the spec: one tokenizer piece — literal text or an
argument reference. -/
inductive Piece where
  | Str : String → Piece
  | NextArgument : Argument → Piece
deriving Repr, DecidableEq

/-- Modelled from the spec: the tokenizer's complete output for one format
string — the piece stream together with the (message, optional detail)
syntax diagnostics the tokenizer accumulated, checked by `outer_parse`
after the stream has been consumed. -/
structure Tokenized where
  tokens : List Piece
  errors : List (String × Option String)
deriving Repr, DecidableEq

end fmt_macros

namespace v1

/-- Backend alignment (std `fmt::rt::v1::Alignment`). -/
inductive Alignment where
  | Left
  | Right
  | Center
  | Unknown
deriving Repr, DecidableEq

/-- Backend count (std `fmt::rt::v1::Count`): literal value, resolved
argument slot, or implied. -/
inductive Count where
  | Is : Nat → Count
  | Param : Nat → Count
  | Implied
deriving Repr, DecidableEq

/-- Backend format specification (std `fmt::rt::v1::FormatSpec`). -/
structure FormatSpec where
  fill : Char
  flags : Nat
  align : Alignment
  precision : Count
  width : Count
deriving Repr, DecidableEq

/-- Backend argument position (std `fmt::rt::v1::Position::At`). -/
inductive Position where
  | At : Nat → Position
deriving Repr, DecidableEq

/-- Backend format-specification entry (std `fmt::rt::v1::Argument`). -/
structure Argument where
  position : Position
  format : FormatSpec
deriving Repr, DecidableEq

end v1

/-- The `ParseTarget` trait of src/lib.rs (lines 311-317) as a structure of
functions, generic over the resolved-argument type. Neither implementation
in the source mutates its receiver, so the methods are pure functions. -/
structure ParseTarget (Arg : Type) where
  validate_name : String → Option Nat
  validate_index : Nat → Bool
  format : String → Nat → Except Error Arg
  format_usize : Nat → Option Arg

/-- The running state of the single forward pass of `parse`: the fragment,
resolved-argument and format-spec accumulators plus the pending literal
buffer `str_accum`. -/
structure ParseState (Arg : Type) where
  pieces : List String
  args : List Arg
  fmt : List v1.Argument
  str_accum : String
deriving Repr, DecidableEq

/-- The initial parse state: empty accumulators, empty pending literal. -/
def initState {Arg : Type} : ParseState Arg :=
  { pieces := [], args := [], fmt := [], str_accum := "" }

/-- Result of a successful parse (the `Parsed` struct, src/lib.rs lines
363-367). -/
structure Parsed (Arg : Type) where
  pieces : List String
  args : List Arg
  fmt : List v1.Argument
deriving Repr, DecidableEq

/-- Translation of the alignment match in src/lib.rs lines 458-463. -/
def convertAlign : fmt_macros.Alignment → v1.Alignment
  | .AlignLeft => .Left
  | .AlignRight => .Right
  | .AlignCenter => .Center
  | .AlignUnknown => .Unknown

/-- The `convert_count` closure of src/lib.rs lines 430-454. It threads
the resolved-argument accumulator: a by-name or by-index count validates
the name/index, then resolves the argument as an unsigned size via
`format_usize`; failure of that step is `BadCount idx`. A resolved count
argument is appended to the accumulator and the count refers to the fresh
slot (the accumulator length before the push). -/
def convert_count {Arg : Type} (target : ParseTarget Arg)
    (c : fmt_macros.Count) (args : List Arg) :
    Except Error (v1.Count × List Arg) :=
  match c with
  | .CountIs val => .ok (.Is val, args)
  | .CountIsName name =>
    match target.validate_name name with
    | none => .error (.BadName name)
    | some idx =>
      match target.format_usize idx with
      | some arg => .ok (.Param args.length, args ++ [arg])
      | none => .error (.BadCount idx)
  | .CountIsParam idx =>
    if target.validate_index idx then
      match target.format_usize idx with
      | some arg => .ok (.Param args.length, args ++ [arg])
      | none => .error (.BadCount idx)
    else .error (.BadIndex idx)
  | .CountImplied => .ok (.Implied, args)

/-- The position-resolution match of src/lib.rs lines 413-426: an explicit
index must pass `validate_index` (else `BadIndex`), an explicit name must
pass `validate_name` (else `BadName`). -/
def resolvePos {Arg : Type} (target : ParseTarget Arg)
    (pos : fmt_macros.Position) : Except Error Nat :=
  match pos with
  | .ArgumentIs idx =>
    if target.validate_index idx then .ok idx else .error (.BadIndex idx)
  | .ArgumentNamed name =>
    match target.validate_name name with
    | some idx => .ok idx
    | none => .error (.BadName name)

/-- One iteration of the `parse` loop body (src/lib.rs lines 392-478): a
literal piece is merged into the pending buffer; an argument reference
flushes the pending buffer (even if empty), resolves its position, binds
the main argument, converts precision then width, and appends the format
specification. -/
def stepOne {Arg : Type} (target : ParseTarget Arg)
    (p : fmt_macros.Piece) (s : ParseState Arg) :
    Except Error (ParseState Arg) :=
  match p with
  | .Str text =>
    .ok { s with str_accum :=
      if s.str_accum.isEmpty then text
      else if text.isEmpty then s.str_accum
      else s.str_accum ++ text }
  | .NextArgument arg =>
    match resolvePos target arg.position with
    | .error e => .error e
    | .ok idx =>
      match target.format arg.format.ty idx with
      | .error e => .error e
      | .ok mainArg =>
        match convert_count target arg.format.precision (s.args ++ [mainArg]) with
        | .error e => .error e
        | .ok (prec, args2) =>
          match convert_count target arg.format.width args2 with
          | .error e => .error e
          | .ok (width, args3) =>
            .ok { pieces := s.pieces ++ [s.str_accum]
                , args := args3
                , fmt := s.fmt ++
                    [ { position := .At s.args.length
                      , format :=
                        { fill := arg.format.fill.getD ' '
                        , flags := arg.format.flags
                        , align := convertAlign arg.format.align
                        , precision := prec
                        , width := width } } ]
                , str_accum := "" }

/-- Iterating `stepOne` over the piece stream, stopping at the first
error, exactly as the Rust `while let` loop with `?` early returns. -/
def stepMany {Arg : Type} (target : ParseTarget Arg) :
    List fmt_macros.Piece → ParseState Arg → Except Error (ParseState Arg)
  | [], s => .ok s
  | p :: ps, s =>
    match stepOne target p s with
    | .error e => .error e
    | .ok s2 => stepMany target ps s2

/-- The end-of-stream flush of src/lib.rs lines 480-483: the pending
literal buffer is appended only when non-empty. -/
def finish {Arg : Type} (s : ParseState Arg) : Parsed Arg :=
  { pieces := if s.str_accum.isEmpty then s.pieces else s.pieces ++ [s.str_accum]
  , args := s.args
  , fmt := s.fmt }

/-- The `parse` function of src/lib.rs lines 382-490, as the composition
of the loop and the final flush. -/
def parse {Arg : Type} (target : ParseTarget Arg)
    (tokens : List fmt_macros.Piece) : Except Error (Parsed Arg) :=
  (stepMany target tokens initState).map finish

/-- The `outer_parse` function of src/lib.rs lines 369-380: run the
resolution pass, then check the tokenizer's collected diagnostics; syntax
errors take priority, the pass result is returned only when there are
none. -/
def outer_parse {Arg : Type} (target : ParseTarget Arg)
    (tk : fmt_macros.Tokenized) : Except Error (Parsed Arg) :=
  let result := parse target tk.tokens
  if tk.errors.isEmpty then result
  else .error (.BadSyntax tk.errors)

/-- The free `newln` function of src/lib.rs lines 296-309: when the
fragment count exceeds `len` (the format-spec count) the final fragment is
extended in place with a linefeed; otherwise a new one-character fragment
is appended. -/
def newln (pieces : List String) (len : Nat) : List String :=
  if len < pieces.length then
    pieces.dropLast ++ [pieces.getLastD "" ++ "\n"]
  else
    pieces ++ ["\n"]

/-- A type-erased parameter of the Immediate binding (the `Param` struct,
src/lib.rs lines 131-136): an optional name, an erased value (here kept
generic in `V` since the `erase::Format` adapter is external to the
resolver), and the eagerly computed unsigned-size projection. -/
structure Param (V : Type) where
  name : Option String
  value : V
  as_usize : Option Nat
deriving Repr, DecidableEq

namespace ImmediateParse

/-- The `validate_name` of the Immediate binding (src/lib.rs lines
324-326): the position of the first parameter whose (optional) name equals
the queried name. -/
def validate_name {V : Type} (params : List (Param V)) (name : String) :
    Option Nat :=
  params.findIdx? fun p =>
    match p.name with
    | some n => n == name
    | none => false

/-- The `validate_index` of the Immediate binding (src/lib.rs lines
328-330): any index strictly below the parameter-list length is valid. -/
def validate_index {V : Type} (params : List (Param V)) (index : Nat) :
    Bool :=
  decide (index < params.length)

/-- The `format_usize` of the Immediate binding (src/lib.rs lines
336-338): the precomputed unsigned-size projection of the parameter,
wrapped as a resolved argument. Rust indexes unconditionally (the index
was validated first); out-of-range reads are modelled as `none`. -/
def format_usize {V Arg : Type} (from_usize : Nat → Arg)
    (params : List (Param V)) (idx : Nat) : Option Arg :=
  (params[idx]?.bind fun p => p.as_usize).map from_usize

/-- The `format` of the Immediate binding (src/lib.rs lines 332-334):
delegate to the erased value's `by_name` (the `erase` module is external
to the resolver, so the adapter is a function argument here). Rust indexes
unconditionally after validation; out-of-range reads are modelled as a
`BadIndex` error. -/
def format {V Arg : Type}
    (by_name : V → String → Nat → Except Error Arg)
    (params : List (Param V)) (spec : String) (idx : Nat) :
    Except Error Arg :=
  match params[idx]? with
  | some p => by_name p.value spec idx
  | none => .error (.BadIndex idx)

/-- The `ImmediateParse` binding assembled as a `ParseTarget`
(src/lib.rs lines 319-339). -/
def toTarget {V Arg : Type}
    (by_name : V → String → Nat → Except Error Arg)
    (from_usize : Nat → Arg)
    (params : List (Param V)) : ParseTarget Arg :=
  { validate_name := validate_name params
  , validate_index := validate_index params
  , format := format by_name params
  , format_usize := format_usize from_usize params }

end ImmediateParse

/-- Modelled from the spec: the `FormatArgs` contract implemented by the
derive/codegen layer for a producer type `T` (the `codegen` module is not
under src/). It supplies name/index tables, recipe lookup by type tag, and
unsigned-size projection recipes, exactly the four operations the Deferred
binding delegates to (src/lib.rs lines 343-361). `Fmt` abstracts the
external formatter-call result. -/
structure FormatArgs (T Fmt : Type) where
  validate_name : String → Option Nat
  validate_index : Nat → Bool
  get_child : String → Nat → Except Error (T → Fmt)
  as_usize : Nat → Option (T → Nat)

/-- A resolved argument of the Deferred binding (the `PreparedArgument`
enum, src/lib.rs lines 160-163): a formatting recipe or an unsigned-size
extraction recipe over the producer type. -/
inductive PreparedArgument (T Fmt : Type) where
  | Normal : (T → Fmt) → PreparedArgument T Fmt
  | Usize : (T → Nat) → PreparedArgument T Fmt

/-- The `DelayedParse` binding assembled as a `ParseTarget` (src/lib.rs
lines 341-361). -/
def DelayedParse.toTarget {T Fmt : Type} (fa : FormatArgs T Fmt) :
    ParseTarget (PreparedArgument T Fmt) :=
  { validate_name := fa.validate_name
  , validate_index := fa.validate_index
  , format := fun spec idx => (fa.get_child spec idx).map .Normal
  , format_usize := fun idx => (fa.as_usize idx).map .Usize }

/-- The backend's erased argument (std `fmt::ArgumentV1`): a value paired
with a formatting routine, or an unsigned-size count value
(`ArgumentV1::new` / `ArgumentV1::from_usize`). -/
inductive ArgumentV1 (T Fmt : Type) where
  | new : T → (T → Fmt) → ArgumentV1 T Fmt
  | from_usize : Nat → ArgumentV1 T Fmt

/-- The assembled triple handed to the rendering backend (std
`Arguments::new_v1_formatted(pieces, args, fmt)`). -/
structure Arguments (A : Type) where
  pieces : List String
  args : List A
  fmt : List v1.Argument

/-- The Immediate plan (the `FormatBuf` struct, src/lib.rs lines
230-234), generic over the resolved-argument type as the embedding keeps
the backend's `ArgumentV1` abstract. -/
structure FormatBuf (A : Type) where
  pieces : List String
  args : List A
  fmt : List v1.Argument

/-- Rust `FormatBuf::new` (src/lib.rs lines 242-249): run `outer_parse` with
the Immediate binding and repackage the result. -/
def FormatBuf.new {V Arg : Type}
    (by_name : V → String → Nat → Except Error Arg)
    (from_usize : Nat → Arg)
    (tk : fmt_macros.Tokenized) (params : List (Param V)) :
    Except Error (FormatBuf Arg) :=
  (outer_parse (ImmediateParse.toTarget by_name from_usize params) tk).map
    fun r => { pieces := r.pieces, args := r.args, fmt := r.fmt }

/-- Rust `FormatBuf::newln` (src/lib.rs lines 252-255): apply the free `newln`
to the fragment list with the format-spec count. -/
def FormatBuf.newln {A : Type} (buf : FormatBuf A) : FormatBuf A :=
  { buf with pieces := RtFmt.newln buf.pieces buf.fmt.length }

/-- Rust `FormatBuf::with` (src/lib.rs lines 258-261): hand the plan's own
fragments, arguments and format specs to the backend callback. The method
reads the plan and builds a fresh `Arguments` value each call. -/
def FormatBuf.withArgs {A R : Type} (buf : FormatBuf A)
    (f : Arguments A → R) : R :=
  f { pieces := buf.pieces, args := buf.args, fmt := buf.fmt }

/-- Rust `FormatBuf::format` (src/lib.rs lines 264-266): render via `with`;
the std backend `fmt::format` is external, abstracted as `backend`. -/
def FormatBuf.format {A : Type} (backend : Arguments A → String)
    (buf : FormatBuf A) : String :=
  buf.withArgs backend

/-- The Prepared plan (the `PreparedFormat` struct, src/lib.rs lines
171-175). -/
structure PreparedFormat (T Fmt : Type) where
  pieces : List String
  args : List (PreparedArgument T Fmt)
  fmt : List v1.Argument

/-- Rust `PreparedFormat::prepare` (src/lib.rs lines 182-189): run
`outer_parse` with the Deferred binding and repackage the result. -/
def PreparedFormat.prepare {T Fmt : Type} (fa : FormatArgs T Fmt)
    (tk : fmt_macros.Tokenized) : Except Error (PreparedFormat T Fmt) :=
  (outer_parse (DelayedParse.toTarget fa) tk).map
    fun r => { pieces := r.pieces, args := r.args, fmt := r.fmt }

/-- Rust `PreparedFormat::newln` (src/lib.rs lines 192-195). -/
def PreparedFormat.newln {T Fmt : Type} (p : PreparedFormat T Fmt) :
    PreparedFormat T Fmt :=
  { p with pieces := RtFmt.newln p.pieces p.fmt.length }

/-- The per-render recipe replay of `PreparedFormat::with` (src/lib.rs
lines 200-203): a `Normal` recipe becomes `ArgumentV1::new(t, func)`, a
`Usize` recipe becomes `ArgumentV1::from_usize(func(t))`. -/
def PreparedArgument.resolveWith {T Fmt : Type} (t : T) :
    PreparedArgument T Fmt → ArgumentV1 T Fmt
  | .Normal func => .new t func
  | .Usize func => .from_usize (func t)

/-- Rust `PreparedFormat::with` (src/lib.rs lines 198-205): replay every stored
recipe against the supplied producer instance and hand the plan's own
fragments and format specs, with the freshly resolved arguments, to the
backend callback. No validation occurs. -/
def PreparedFormat.withArgs {T Fmt R : Type} (p : PreparedFormat T Fmt)
    (t : T) (f : Arguments (ArgumentV1 T Fmt) → R) : R :=
  f { pieces := p.pieces
    , args := p.args.map (PreparedArgument.resolveWith t)
    , fmt := p.fmt }

/-- Rust `PreparedFormat::format` (src/lib.rs lines 208-210): render via
`with`; the std backend is abstracted as `backend`. -/
def PreparedFormat.format {T Fmt : Type}
    (backend : Arguments (ArgumentV1 T Fmt) → String)
    (p : PreparedFormat T Fmt) (t : T) : String :=
  p.withArgs t backend

/-! ### Helper lemmas about the parse loop -/

/-- Splitting the loop at a list append: the second half runs from the
state the first half reached, and an error in the first half is final. -/
theorem stepMany_append {Arg : Type} (target : ParseTarget Arg)
    (l1 l2 : List fmt_macros.Piece) (s : ParseState Arg) :
    stepMany target (l1 ++ l2) s =
      match stepMany target l1 s with
      | .error e => .error e
      | .ok s2 => stepMany target l2 s2 := by
  induction l1 generalizing s with
  | nil => simp [stepMany]
  | cons p ps ih =>
    simp only [List.cons_append, stepMany]
    cases stepOne target p s with
    | error e => rfl
    | ok s2 => exact ih s2

/-- The merge of a literal piece into the pending buffer is string
append. -/
theorem stepOne_str {Arg : Type} (target : ParseTarget Arg)
    (text : String) (s : ParseState Arg) :
    stepOne target (.Str text) s = .ok { s with str_accum := s.str_accum ++ text } := by
  simp only [stepOne]
  by_cases h1 : s.str_accum.isEmpty
  · rw [String.isEmpty_iff] at h1
    rw [h1]
    rfl
  · by_cases h2 : text.isEmpty
    · rw [String.isEmpty_iff] at h2
      rw [h2]
      simp [h1]
    · simp [h1, h2]

/-- A successful argument-reference step always flushes the pending
buffer (even empty) as one fragment, clears it, and appends exactly one
format specification whose position is the pre-step argument count. -/
theorem stepOne_arg_shape {Arg : Type} (target : ParseTarget Arg)
    (a : fmt_macros.Argument) (s s2 : ParseState Arg)
    (h : stepOne target (.NextArgument a) s = .ok s2) :
    s2.pieces = s.pieces ++ [s.str_accum] ∧ s2.str_accum = "" ∧
      ∃ spec, s2.fmt = s.fmt ++ [ { position := .At s.args.length, format := spec } ] := by
  simp only [stepOne] at h
  split at h
  · exact absurd h (by simp)
  · split at h
    · exact absurd h (by simp)
    · split at h
      · exact absurd h (by simp)
      · split at h
        · exact absurd h (by simp)
        · cases h
          exact ⟨rfl, rfl, _, rfl⟩

/-- Every successful step either leaves the fragment and format-spec
counts unchanged (a literal) or increments both by one (an argument
reference). -/
theorem stepOne_counts {Arg : Type} (target : ParseTarget Arg)
    (p : fmt_macros.Piece) (s s2 : ParseState Arg)
    (h : stepOne target p s = .ok s2) :
    (s2.pieces = s.pieces ∧ s2.fmt = s.fmt) ∨
      (s2.pieces.length = s.pieces.length + 1 ∧ s2.fmt.length = s.fmt.length + 1) := by
  cases p with
  | Str text =>
    left
    rw [stepOne_str] at h
    cases h
    exact ⟨rfl, rfl⟩
  | NextArgument a =>
    right
    obtain ⟨h1, _, spec, h3⟩ := stepOne_arg_shape target a s s2 h
    rw [h1, h3]
    simp

/-- The loop invariant: the fragment count equals the format-spec count
throughout the pass (the pending buffer holds unflushed literal text). -/
theorem stepMany_inv {Arg : Type} (target : ParseTarget Arg)
    (l : List fmt_macros.Piece) :
    ∀ s s2 : ParseState Arg, s.pieces.length = s.fmt.length →
      stepMany target l s = .ok s2 → s2.pieces.length = s2.fmt.length := by
  induction l with
  | nil =>
    intro s s2 hinv h
    simp only [stepMany] at h
    cases h
    exact hinv
  | cons p ps ih =>
    intro s s2 hinv h
    simp only [stepMany] at h
    cases hso : stepOne target p s with
    | error e => rw [hso] at h; exact absurd h (by simp)
    | ok smid =>
      rw [hso] at h
      refine ih smid s2 ?_ h
      rcases stepOne_counts target p s smid hso with ⟨h1, h2⟩ | ⟨h1, h2⟩
      · rw [h1, h2]; exact hinv
      · omega

/-- A successful parse has fragment count equal to the format-spec count,
plus one exactly when the pass ended with nonempty pending literal
text. -/
theorem parse_ok_shape {Arg : Type} (target : ParseTarget Arg)
    (tokens : List fmt_macros.Piece) (r : Parsed Arg)
    (h : parse target tokens = .ok r) :
    ∃ st, stepMany target tokens initState = .ok st ∧
      st.pieces.length = st.fmt.length ∧ r.fmt = st.fmt ∧
      r.pieces.length = r.fmt.length + (if st.str_accum.isEmpty then 0 else 1) := by
  simp only [parse] at h
  cases hsm : stepMany target tokens initState with
  | error e => rw [hsm] at h; exact absurd h (by simp [Except.map])
  | ok st =>
    rw [hsm] at h
    simp only [Except.map] at h
    cases h
    have hinv := stepMany_inv target tokens initState st (by simp [initState]) hsm
    refine ⟨st, rfl, hinv, rfl, ?_⟩
    by_cases he : st.str_accum.isEmpty <;> simp [finish, he, hinv]

/-! ### Concrete fixtures used by the witness theorems -/

/-- A concrete binding for witnesses: three slots, name "w" at slot 1 and
name "p" at slot 2, slot 2 not usable as a count. -/
def tgtW : ParseTarget String :=
  { validate_name := fun n => if n = "w" then some 1 else if n = "p" then some 2 else none
  , validate_index := fun i => decide (i < 3)
  , format := fun ty idx => .ok (ty ++ toString idx)
  , format_usize := fun idx => if idx = 2 then none else some ("u" ++ toString idx) }

/-- A default tokenizer format descriptor for witnesses. -/
def defSpecW : fmt_macros.FormatSpec :=
  { fill := none, align := .AlignUnknown, flags := 0
  , precision := .CountImplied, width := .CountImplied, ty := "" }

/-- A concrete erased-value adapter for witnesses of the Immediate
binding wrappers. -/
def byNameW : Nat → String → Nat → Except Error Nat :=
  fun v _ _ => .ok v

/-- A concrete count projection for witnesses. -/
def fromUsizeW : Nat → Nat := fun n => n

/-- A concrete parameter list for witnesses: an unnamed slot 0 followed by
a named slot 1. -/
def paramsW : List (Param Nat) :=
  [ { name := none, value := 5, as_usize := some 5 }
  , { name := some "x", value := 7, as_usize := some 7 } ]

/-- A concrete producer contract for witnesses of the Deferred binding. -/
def faW : FormatArgs Nat Nat :=
  { validate_name := fun _ => none
  , validate_index := fun _ => false
  , get_child := fun _ _ => .error .Io
  , as_usize := fun _ => none }

/-! ### The claims -/

/-- Claim C1: if the tokenizer recorded at least one syntax diagnostic,
then `outer_parse` (hence both `build`/`FormatBuf::new` and
`PreparedFormat::prepare`) returns `BadSyntax` carrying every recorded
(message, optional-detail) pair, for every binding and token stream —
regardless of whether the resolution pass succeeded or failed. -/
theorem claim_C1_bad_syntax_priority {Arg V A2 T Fmt : Type}
    (target : ParseTarget Arg)
    (by_name : V → String → Nat → Except Error A2) (from_usize : Nat → A2)
    (params : List (Param V)) (fa : FormatArgs T Fmt)
    (tokens : List fmt_macros.Piece)
    (errors : List (String × Option String)) (h : errors ≠ []) :
    outer_parse target ⟨tokens, errors⟩ = .error (.BadSyntax errors) ∧
    FormatBuf.new by_name from_usize ⟨tokens, errors⟩ params
      = .error (.BadSyntax errors) ∧
    PreparedFormat.prepare fa ⟨tokens, errors⟩ = .error (.BadSyntax errors) := by
  have he : errors.isEmpty = false := by
    cases errors with
    | nil => exact absurd rfl h
    | cons a l => rfl
  refine ⟨?_, ?_, ?_⟩ <;>
    simp [outer_parse, FormatBuf.new, PreparedFormat.prepare, he, Except.map]

/-- Witness for C1: a concrete stream whose resolution would fail with
`BadIndex 7` still surfaces the recorded syntax diagnostic. -/
theorem claim_C1_witness :
    outer_parse tgtW ⟨[.NextArgument ⟨.ArgumentIs 7, defSpecW⟩], [("e", none)]⟩
      = .error (.BadSyntax [("e", none)]) ∧
    FormatBuf.new byNameW fromUsizeW
        ⟨[.NextArgument ⟨.ArgumentIs 7, defSpecW⟩], [("e", none)]⟩ paramsW
      = .error (.BadSyntax [("e", none)]) ∧
    PreparedFormat.prepare faW
        ⟨[.NextArgument ⟨.ArgumentIs 7, defSpecW⟩], [("e", none)]⟩
      = .error (.BadSyntax [("e", none)]) :=
  claim_C1_bad_syntax_priority tgtW byNameW fromUsizeW paramsW faW
    [.NextArgument ⟨.ArgumentIs 7, defSpecW⟩] [("e", none)] (by simp)

/-- Claim C2: a width or precision count referencing an argument by name
or index first passes name/index validation (failing with
`BadName`/`BadIndex`), then `format_usize`; a `none` there fails with
`BadCount` carrying the resolved index; otherwise a fresh
resolved-argument entry is appended and the count refers to that fresh
slot. -/
theorem claim_C2_count_resolution {Arg : Type} (target : ParseTarget Arg)
    (args : List Arg) (name : String) (idx : Nat) (a : Arg) :
    (target.validate_name name = none →
      convert_count target (.CountIsName name) args = .error (.BadName name)) ∧
    (target.validate_name name = some idx → target.format_usize idx = none →
      convert_count target (.CountIsName name) args = .error (.BadCount idx)) ∧
    (target.validate_name name = some idx → target.format_usize idx = some a →
      convert_count target (.CountIsName name) args
        = .ok (.Param args.length, args ++ [a])) ∧
    (target.validate_index idx = false →
      convert_count target (.CountIsParam idx) args = .error (.BadIndex idx)) ∧
    (target.validate_index idx = true → target.format_usize idx = none →
      convert_count target (.CountIsParam idx) args = .error (.BadCount idx)) ∧
    (target.validate_index idx = true → target.format_usize idx = some a →
      convert_count target (.CountIsParam idx) args
        = .ok (.Param args.length, args ++ [a])) := by
  refine ⟨fun h1 => ?_, fun h1 h2 => ?_, fun h1 h2 => ?_,
    fun h1 => ?_, fun h1 h2 => ?_, fun h1 h2 => ?_⟩ <;>
      simp [convert_count, h1] <;> simp [h2]

/-- Witness for C2: each of the six count-resolution outcomes at a
concrete binding. -/
theorem claim_C2_witness :
    convert_count tgtW (.CountIsName "nope") ["z"] = .error (.BadName "nope") ∧
    convert_count tgtW (.CountIsName "p") ["z"] = .error (.BadCount 2) ∧
    convert_count tgtW (.CountIsName "w") ["z"] = .ok (.Param 1, ["z", "u1"]) ∧
    convert_count tgtW (.CountIsParam 7) ["z"] = .error (.BadIndex 7) ∧
    convert_count tgtW (.CountIsParam 2) ["z"] = .error (.BadCount 2) ∧
    convert_count tgtW (.CountIsParam 1) ["z"] = .ok (.Param 1, ["z", "u1"]) :=
  ⟨(claim_C2_count_resolution tgtW ["z"] "nope" 0 "u1").1 rfl,
   (claim_C2_count_resolution tgtW ["z"] "p" 2 "u1").2.1 rfl rfl,
   (claim_C2_count_resolution tgtW ["z"] "w" 1 "u1").2.2.1 rfl rfl,
   (claim_C2_count_resolution tgtW ["z"] "nope" 7 "u1").2.2.2.1 rfl,
   (claim_C2_count_resolution tgtW ["z"] "nope" 2 "u1").2.2.2.2.1 rfl rfl,
   (claim_C2_count_resolution tgtW ["z"] "nope" 1 "u1").2.2.2.2.2 rfl rfl⟩

/-- Claim C3: an argument reference's position is checked before binding:
after any successfully processed prefix, an explicit numeric index failing
`validate_index` makes the whole parse fail with `BadIndex` of that index
(no partial plan — the result is an error, whatever follows), and an
explicit name unknown to the binding makes it fail with `BadName` of that
name. -/
theorem claim_C3_position_validation {Arg : Type} (target : ParseTarget Arg)
    (pre rest : List fmt_macros.Piece) (s : ParseState Arg)
    (fspec : fmt_macros.FormatSpec) (i : Nat) (n : String)
    (hpre : stepMany target pre initState = .ok s) :
    (target.validate_index i = false →
      parse target (pre ++ .NextArgument ⟨.ArgumentIs i, fspec⟩ :: rest)
        = .error (.BadIndex i)) ∧
    (target.validate_name n = none →
      parse target (pre ++ .NextArgument ⟨.ArgumentNamed n, fspec⟩ :: rest)
        = .error (.BadName n)) := by
  constructor
  · intro h
    have hstep : stepOne target (.NextArgument ⟨.ArgumentIs i, fspec⟩) s
        = .error (.BadIndex i) := by
      simp [stepOne, resolvePos, h]
    simp [parse, stepMany_append, hpre, stepMany, hstep, Except.map]
  · intro h
    have hstep : stepOne target (.NextArgument ⟨.ArgumentNamed n, fspec⟩) s
        = .error (.BadName n) := by
      simp [stepOne, resolvePos, h]
    simp [parse, stepMany_append, hpre, stepMany, hstep, Except.map]

/-- Witness for C3: index 7 is out of range for the three-slot binding and
name "nope" is unknown; both fail even with further tokens pending. -/
theorem claim_C3_witness :
    parse tgtW ([.Str "a"] ++ .NextArgument ⟨.ArgumentIs 7, defSpecW⟩ :: [.Str "b"])
      = .error (.BadIndex 7) ∧
    parse tgtW ([.Str "a"] ++ .NextArgument ⟨.ArgumentNamed "nope", defSpecW⟩ :: [.Str "b"])
      = .error (.BadName "nope") := by
  have h := claim_C3_position_validation tgtW [.Str "a"] [.Str "b"]
    { pieces := [], args := [], fmt := [], str_accum := "a" } defSpecW 7 "nope" rfl
  exact ⟨h.1 rfl, h.2 rfl⟩

/-- Claim C7: the resolver stops at the first resolution error of the
single forward pass and returns exactly that error; the result is
all-or-nothing — an erroring parse returns no plan at all. -/
theorem claim_C7_first_error_wins {Arg : Type} (target : ParseTarget Arg)
    (pre : List fmt_macros.Piece) (t : fmt_macros.Piece)
    (rest : List fmt_macros.Piece) (s : ParseState Arg) (e : Error)
    (hpre : stepMany target pre initState = .ok s)
    (herr : stepOne target t s = .error e) :
    parse target (pre ++ t :: rest) = .error e ∧
    ∀ r : Parsed Arg, parse target (pre ++ t :: rest) ≠ .ok r := by
  have hmain : parse target (pre ++ t :: rest) = .error e := by
    simp [parse, stepMany_append, hpre, stepMany, herr, Except.map]
  refine ⟨hmain, fun r hr => ?_⟩
  rw [hmain] at hr
  exact absurd hr (by simp)

/-- Witness for C7: the first failing token (a `BadIndex 7` reference)
decides the outcome even though a second, also-failing reference
follows. -/
theorem claim_C7_witness :
    parse tgtW ([.Str "a"] ++ .NextArgument ⟨.ArgumentIs 7, defSpecW⟩ ::
        [.NextArgument ⟨.ArgumentNamed "nope", defSpecW⟩])
      = .error (.BadIndex 7) ∧
    ∀ r : Parsed String,
      parse tgtW ([.Str "a"] ++ .NextArgument ⟨.ArgumentIs 7, defSpecW⟩ ::
          [.NextArgument ⟨.ArgumentNamed "nope", defSpecW⟩])
        ≠ .ok r :=
  claim_C7_first_error_wins tgtW [.Str "a"]
    (.NextArgument ⟨.ArgumentIs 7, defSpecW⟩)
    [.NextArgument ⟨.ArgumentNamed "nope", defSpecW⟩]
    { pieces := [], args := [], fmt := [], str_accum := "a" }
    (.BadIndex 7) rfl rfl

/-- A parse state mid-pass with nonempty pending literal, for
witnesses. -/
def sW : ParseState String :=
  { pieces := ["p"], args := [], fmt := [], str_accum := "ab" }

/-- The state after one argument-reference step from the initial state,
for witnesses. -/
def scW : ParseState String :=
  { pieces := [""], args := ["0"]
  , fmt := [ { position := .At 0
             , format := { fill := ' ', flags := 0, align := .Unknown
                         , precision := .Implied, width := .Implied } } ]
  , str_accum := "" }

/-- A concrete token stream (literal, argument, literal) for witnesses. -/
def toksW : List fmt_macros.Piece :=
  [.Str "ab", .NextArgument ⟨.ArgumentIs 0, defSpecW⟩, .Str "xy"]

/-- The parse result of `toksW` against `tgtW`, for witnesses. -/
def rW : Parsed String :=
  { pieces := ["ab", "xy"], args := ["0"]
  , fmt := [ { position := .At 0
             , format := { fill := ' ', flags := 0, align := .Unknown
                         , precision := .Implied, width := .Implied } } ] }

/-- Claim C4: adjacent literal tokens merge into the pending buffer; the
pending buffer is flushed as a fragment (even when empty) immediately
before each argument reference; at end of stream the pending buffer is
appended only if non-empty, so the fragment count equals the format-spec
count, plus one exactly when the pass ends with nonempty pending literal
text. -/
theorem claim_C4_fragment_interleaving {Arg : Type} (target : ParseTarget Arg)
    (text : String) (s sb sc : ParseState Arg) (a : fmt_macros.Argument)
    (tokens : List fmt_macros.Piece) (r : Parsed Arg) :
    (stepOne target (.Str text) s
      = .ok { s with str_accum := s.str_accum ++ text }) ∧
    (stepOne target (.NextArgument a) sb = .ok sc →
      sc.pieces = sb.pieces ++ [sb.str_accum] ∧ sc.str_accum = "") ∧
    (parse target tokens = .ok r →
      ∃ st, stepMany target tokens initState = .ok st ∧
        st.pieces.length = st.fmt.length ∧ r.fmt = st.fmt ∧
        r.pieces.length = r.fmt.length
          + (if st.str_accum.isEmpty then 0 else 1)) := by
  refine ⟨stepOne_str target text s, fun h => ?_, parse_ok_shape target tokens r⟩
  obtain ⟨h1, h2, _⟩ := stepOne_arg_shape target a sb sc h
  exact ⟨h1, h2⟩

/-- Witness for C4 at a concrete stream with a literal on each side of an
argument reference. -/
theorem claim_C4_witness :
    (stepOne tgtW (.Str "cd") sW
      = .ok { sW with str_accum := sW.str_accum ++ "cd" }) ∧
    (scW.pieces = (initState : ParseState String).pieces
        ++ [(initState : ParseState String).str_accum] ∧
      scW.str_accum = "") ∧
    (∃ st, stepMany tgtW toksW initState = .ok st ∧
      st.pieces.length = st.fmt.length ∧ rW.fmt = st.fmt ∧
      rW.pieces.length = rW.fmt.length
        + (if st.str_accum.isEmpty then 0 else 1)) := by
  have h := claim_C4_fragment_interleaving tgtW "cd" sW initState scW
    ⟨.ArgumentIs 0, defSpecW⟩ toksW rW
  exact ⟨h.1, h.2.1 rfl, h.2.2 rfl⟩

/-- Claim C5: on a parsed plan, `newln` extends the final fragment in
place when the fragment count exceeds the format-spec count (count
unchanged) and otherwise appends a new one-character fragment (count grows
by one); in both cases the fragment count afterwards is the format-spec
count plus one. -/
theorem claim_C5_newln {Arg : Type} (target : ParseTarget Arg)
    (tokens : List fmt_macros.Piece) (r : Parsed Arg)
    (h : parse target tokens = .ok r) :
    (r.fmt.length < r.pieces.length →
      newln r.pieces r.fmt.length
        = r.pieces.dropLast ++ [r.pieces.getLastD "" ++ "\n"] ∧
      (newln r.pieces r.fmt.length).length = r.pieces.length) ∧
    (¬ r.fmt.length < r.pieces.length →
      newln r.pieces r.fmt.length = r.pieces ++ ["\n"] ∧
      (newln r.pieces r.fmt.length).length = r.pieces.length + 1) ∧
    (newln r.pieces r.fmt.length).length = r.fmt.length + 1 := by
  obtain ⟨st, hsm, hinv, hfmt, hlen⟩ := parse_ok_shape target tokens r h
  have hcases : r.pieces.length = r.fmt.length
      ∨ r.pieces.length = r.fmt.length + 1 := by
    cases he : st.str_accum.isEmpty
    · right
      rw [he] at hlen
      simpa using hlen
    · left
      rw [he] at hlen
      simpa using hlen
  refine ⟨fun hgt => ⟨by simp [newln, hgt], ?_⟩,
    fun hle => ⟨by simp [newln, hle], by simp [newln, hle]⟩, ?_⟩
  · simp only [newln, if_pos hgt, List.length_append, List.length_dropLast]
    simp
    omega
  · rcases hcases with hc | hc
    · have hngt : ¬ r.fmt.length < r.pieces.length := by omega
      simp only [newln, if_neg hngt, List.length_append]
      simp [hc]
    · have hgt2 : r.fmt.length < r.pieces.length := by omega
      simp only [newln, if_pos hgt2, List.length_append, List.length_dropLast]
      simp
      omega

/-- Witness for C5: both newln cases at concrete parsed plans — a stream
ending in literal text and a stream ending in an argument reference. -/
theorem claim_C5_witness :
    ((rW.fmt.length < rW.pieces.length →
      newln rW.pieces rW.fmt.length
        = rW.pieces.dropLast ++ [rW.pieces.getLastD "" ++ "\n"] ∧
      (newln rW.pieces rW.fmt.length).length = rW.pieces.length) ∧
     (¬ rW.fmt.length < rW.pieces.length →
      newln rW.pieces rW.fmt.length = rW.pieces ++ ["\n"] ∧
      (newln rW.pieces rW.fmt.length).length = rW.pieces.length + 1) ∧
     (newln rW.pieces rW.fmt.length).length = rW.fmt.length + 1) ∧
    newln rW.pieces rW.fmt.length = ["ab", "xy\n"] ∧
    newln scW.pieces scW.fmt.length = ["", "\n"] := by
  refine ⟨claim_C5_newln tgtW toksW rW rfl, ?_, ?_⟩ <;> rfl

/-- Claim C6: no deduplication — a single reference whose main argument
and both counts all name the same slot still allocates three distinct
resolved-argument entries, a fresh one per reference. -/
theorem claim_C6_no_dedup {Arg : Type} (target : ParseTarget Arg)
    (s : ParseState Arg) (i : Nat) (a u : Arg)
    (fillc : Option Char) (al : fmt_macros.Alignment) (fl : Nat) (ty : String)
    (h1 : target.validate_index i = true)
    (h2 : target.format ty i = .ok a)
    (h3 : target.format_usize i = some u) :
    stepOne target (.NextArgument ⟨.ArgumentIs i,
        ⟨fillc, al, fl, .CountIsParam i, .CountIsParam i, ty⟩⟩) s
      = .ok { pieces := s.pieces ++ [s.str_accum]
            , args := s.args ++ [a, u, u]
            , fmt := s.fmt ++ [⟨.At s.args.length,
                ⟨fillc.getD ' ', fl, convertAlign al,
                 .Param (s.args.length + 1), .Param (s.args.length + 2)⟩⟩]
            , str_accum := "" } := by
  simp [stepOne, resolvePos, convert_count, h1, h2, h3]

/-- Witness for C6: slot 1 referenced as main argument, precision count
and width count at once yields three fresh entries. -/
theorem claim_C6_witness :
    stepOne tgtW (.NextArgument ⟨.ArgumentIs 1,
        ⟨none, .AlignUnknown, 0, .CountIsParam 1, .CountIsParam 1, "x"⟩⟩) sW
      = .ok { pieces := sW.pieces ++ [sW.str_accum]
            , args := sW.args ++ ["x1", "u1", "u1"]
            , fmt := sW.fmt ++ [⟨.At sW.args.length,
                ⟨(none : Option Char).getD ' ', 0, convertAlign .AlignUnknown,
                 .Param (sW.args.length + 1), .Param (sW.args.length + 2)⟩⟩]
            , str_accum := "" } :=
  claim_C6_no_dedup tgtW sW 1 "x1" "u1" none .AlignUnknown 0 "x" rfl rfl rfl

/-- Claim C10: within one argument-reference token the resolved-argument
slots are allocated main argument first, then the precision count, then
the width count — so a by-reference precision always receives a lower
slot number than a by-reference width of the same token. -/
theorem claim_C10_slot_order {Arg : Type} (target : ParseTarget Arg)
    (s : ParseState Arg) (i pidx widx : Nat) (wname : String) (a up uw : Arg)
    (fillc : Option Char) (al : fmt_macros.Alignment) (fl : Nat) (ty : String)
    (h1 : target.validate_index i = true)
    (h2 : target.format ty i = .ok a)
    (hp1 : target.validate_index pidx = true)
    (hp2 : target.format_usize pidx = some up)
    (hw1 : target.validate_name wname = some widx)
    (hw2 : target.format_usize widx = some uw) :
    stepOne target (.NextArgument ⟨.ArgumentIs i,
        ⟨fillc, al, fl, .CountIsParam pidx, .CountIsName wname, ty⟩⟩) s
      = .ok { pieces := s.pieces ++ [s.str_accum]
            , args := s.args ++ [a, up, uw]
            , fmt := s.fmt ++ [⟨.At s.args.length,
                ⟨fillc.getD ' ', fl, convertAlign al,
                 .Param (s.args.length + 1), .Param (s.args.length + 2)⟩⟩]
            , str_accum := "" } ∧
    s.args.length + 1 < s.args.length + 2 := by
  refine ⟨?_, by omega⟩
  simp [stepOne, resolvePos, convert_count, h1, h2, hp1, hp2, hw1, hw2]

/-- Witness for C10: main argument slot 0, by-index precision, by-name
width — slots 0, 1, 2 in that order. -/
theorem claim_C10_witness :
    stepOne tgtW (.NextArgument ⟨.ArgumentIs 0,
        ⟨none, .AlignUnknown, 0, .CountIsParam 0, .CountIsName "w", "x"⟩⟩) sW
      = .ok { pieces := sW.pieces ++ [sW.str_accum]
            , args := sW.args ++ ["x0", "u0", "u1"]
            , fmt := sW.fmt ++ [⟨.At sW.args.length,
                ⟨(none : Option Char).getD ' ', 0, convertAlign .AlignUnknown,
                 .Param (sW.args.length + 1), .Param (sW.args.length + 2)⟩⟩]
            , str_accum := "" } ∧
    sW.args.length + 1 < sW.args.length + 2 :=
  claim_C10_slot_order tgtW sW 0 0 1 "w" "x0" "u0" "u1" none .AlignUnknown 0 "x"
    rfl rfl rfl rfl rfl rfl

/-- Claim C8: rendering is a pure function of the plan (and, for a
Prepared plan, the supplied producer instance): an Immediate plan's
`format` hands the backend exactly the plan's own fragments, arguments
and format specifications and so repeated calls give identical strings;
a Prepared plan's `with`/`format` can be replayed against any producer
instances, in each case handing the backend the plan's unchanged
fragments and format specs with the recipes resolved against that
instance — no re-validation occurs (the render path cannot return an
error). -/
theorem claim_C8_render_pure {A T Fmt : Type} (buf : FormatBuf A)
    (backend1 : Arguments A → String)
    (p : PreparedFormat T Fmt)
    (backend2 : Arguments (ArgumentV1 T Fmt) → String) (t1 t2 : T) :
    (FormatBuf.format backend1 buf
      = backend1 { pieces := buf.pieces, args := buf.args, fmt := buf.fmt }) ∧
    (FormatBuf.format backend1 buf = FormatBuf.format backend1 buf) ∧
    (PreparedFormat.format backend2 p t1
      = backend2 { pieces := p.pieces
                 , args := p.args.map (PreparedArgument.resolveWith t1)
                 , fmt := p.fmt }) ∧
    (PreparedFormat.format backend2 p t2
      = backend2 { pieces := p.pieces
                 , args := p.args.map (PreparedArgument.resolveWith t2)
                 , fmt := p.fmt }) :=
  ⟨rfl, rfl, rfl, rfl⟩

/-- Claim C9: in the Immediate binding, name lookup returns the zero-based
position of the first parameter whose name equals the query (unnamed
parameters are skipped but occupy positions), and index validation
accepts exactly the indices below the parameter-list length — so a
numeric reference may address a named parameter. -/
theorem claim_C9_immediate_lookup {V : Type} (params : List (Param V))
    (name : String) (i : Nat) :
    (ImmediateParse.validate_name params name = some i →
      ∃ p, params[i]? = some p ∧ p.name = some name ∧
        ∀ j, j < i → ∀ q, params[j]? = some q → q.name ≠ some name) ∧
    (ImmediateParse.validate_index params i = true ↔ i < params.length) := by
  constructor
  · intro h
    rw [ImmediateParse.validate_name, List.findIdx?_eq_some_iff_getElem] at h
    obtain ⟨hlt, hp, hprev⟩ := h
    refine ⟨params[i], List.getElem?_eq_getElem hlt, ?_, ?_⟩
    · revert hp
      cases hn : (params[i]).name with
      | none => simp
      | some n =>
        intro hp
        simp only [beq_iff_eq] at hp
        rw [hp]
    · intro j hj q hq hqn
      have hjl : j < params.length := Nat.lt_trans hj hlt
      rw [List.getElem?_eq_getElem hjl] at hq
      have hq2 : q = params[j] := (Option.some.inj hq).symm
      apply hprev j hj
      rw [hq2] at hqn
      simp [hqn]
  · simp [ImmediateParse.validate_index]

/-- Witness for C9: in a list with an unnamed slot 0 and slot 1 named
"x", lookup of "x" yields position 1 and index 1 is a valid slot. -/
theorem claim_C9_witness :
    (∃ p, paramsW[1]? = some p ∧ p.name = some "x" ∧
      ∀ j, j < 1 → ∀ q, paramsW[j]? = some q → q.name ≠ some "x") ∧
    (ImmediateParse.validate_index paramsW 1 = true ↔ 1 < paramsW.length) :=
  ⟨(claim_C9_immediate_lookup paramsW "x" 1).1 rfl,
   (claim_C9_immediate_lookup paramsW "x" 1).2⟩

end RtFmt
